import Mathlib

/-!
Shallow embedding of the sashay library (type-erased reference and slice
handles) for verification of its specification.

Modelling conventions:
- Memory addresses and all Rust usize values are modelled as Nat; machine
  arithmetic that can wrap is taken modulo USIZE = 2^64, matching release
  builds where overflow wraps and pointer arithmetic uses wrapping_add.
- A Rust TypeId is modelled as an opaque Nat-backed token with equality.
- A static Rust type is a pair of its TypeId and its size_of value.
- A typed reference (a Rust value of type &T or &mut T) is modelled as the
  address it points to; a typed slice &[T] is an address plus element count.
- Fallible operations return Option, mirroring the Rust Option results.
-/

set_option autoImplicit false

/-- The number of values of the usize type on a 64-bit target. -/
def USIZE : Nat := 2 ^ 64

/-- Model of the Rust core TypeId: an opaque token, unique per static type,
supporting only equality. -/
structure TypeId where
  id : Nat
deriving DecidableEq

/-- A static Rust type as far as this library observes it: its TypeId
(the result of TypeId of T) and its size (the result of size_of for T,
padding included). Distinct static types carry distinct TypeId values. -/
structure RustType where
  type_id : TypeId
  size : Nat
deriving DecidableEq

/-- A typed Rust slice reference to values of some statically known type:
the address of the first element and the number of elements. -/
structure RustSlice where
  addr : Nat
  len : Nat
deriving DecidableEq

/-- Model of core ops Bound for usize endpoints, as consumed through the
RangeBounds trait in range.rs. -/
inductive Bound where
  | included : Nat → Bound
  | excluded : Nat → Bound
  | unbounded : Bound
deriving DecidableEq

/-- A range expression: any value implementing RangeBounds over usize is
observed by constrain_range only through its start bound and end bound. -/
structure RangeExpr where
  start_bound : Bound
  end_bound : Bound
deriving DecidableEq

/-- Model of core ops Range over usize: the field stop models the Rust
field named end (a reserved word in Lean). -/
structure URange where
  start : Nat
  stop : Nat
deriving DecidableEq

/-- Model of the len method of Range over usize (via ExactSizeIterator):
the element count is stop - start for a forward range and 0 for a
reversed one. -/
def URange.length (r : URange) : Nat :=
  if r.start < r.stop then r.stop - r.start else 0

/-- Embedding of constrain_range from range.rs under release semantics:
resolve the start bound (included s gives s, excluded s gives s + 1,
unbounded gives 0) and clamp with min len; resolve the end bound
(included e gives e + 1, excluded e gives e, unbounded gives len) and
clamp with min len. The two additions are usize additions, so they wrap
modulo USIZE. -/
def constrain_range (len : Nat) (range : RangeExpr) : URange :=
  let start :=
    (match range.start_bound with
      | Bound.included s => s
      | Bound.excluded s => (s + 1) % USIZE
      | Bound.unbounded => 0).min len
  let stop :=
    (match range.end_bound with
      | Bound.included e => (e + 1) % USIZE
      | Bound.excluded e => e
      | Bound.unbounded => len).min len
  ⟨start, stop⟩

/-- Embedding of constrain_range from range.rs under debug semantics,
where the additions in bound resolution are overflow-checked: a result of
none models the overflow panic raised when an excluded start bound or an
included end bound equals the largest usize value. -/
def constrain_range_checked (len : Nat) (range : RangeExpr) : Option URange :=
  match
    (match range.start_bound with
      | Bound.included s => some s
      | Bound.excluded s => if s + 1 < USIZE then some (s + 1) else none
      | Bound.unbounded => some 0)
  with
  | none => none
  | some s =>
    match
      (match range.end_bound with
        | Bound.included e => if e + 1 < USIZE then some (e + 1) else none
        | Bound.excluded e => some e
        | Bound.unbounded => some len)
    with
    | none => none
    | some e => some ⟨s.min len, e.min len⟩

/-- The resolved (pre-clamp) start endpoint of a range expression, as
computed inside constrain_range. -/
def RangeExpr.resolved_start (r : RangeExpr) : Nat :=
  match r.start_bound with
  | Bound.included s => s
  | Bound.excluded s => (s + 1) % USIZE
  | Bound.unbounded => 0

/-- The resolved (pre-clamp) end endpoint of a range expression, as
computed inside constrain_range. -/
def RangeExpr.resolved_stop (r : RangeExpr) (len : Nat) : Nat :=
  match r.end_bound with
  | Bound.included e => (e + 1) % USIZE
  | Bound.excluded e => e
  | Bound.unbounded => len

/-- True when resolving the bounds of this range expression cannot
overflow usize: an excluded start bound or an included end bound must be
strictly below the largest usize value. -/
def RangeExpr.no_overflow (r : RangeExpr) : Bool :=
  (match r.start_bound with
    | Bound.excluded s => s + 1 < USIZE
    | _ => true)
  &&
  (match r.end_bound with
    | Bound.included e => e + 1 < USIZE
    | _ => true)

/-- Embedding of the AnyRef struct from any_ref.rs: a raw address plus the
TypeId of the erased referent type. The lifetime marker has no runtime
content and is not modelled. -/
structure AnyRef where
  ptr : Nat
  type_id : TypeId
deriving DecidableEq

/-- Embedding of AnyRef from_raw_parts. -/
def AnyRef.from_raw_parts (ptr : Nat) (type_id : TypeId) : AnyRef :=
  ⟨ptr, type_id⟩

/-- Embedding of AnyRef erase for a reference of static type T: capture
the address of the referent and the TypeId of T. -/
def AnyRef.erase (T : RustType) (reference : Nat) : AnyRef :=
  AnyRef.from_raw_parts reference T.type_id

/-- Embedding of AnyRef contains for a candidate type T. -/
def AnyRef.contains (a : AnyRef) (T : RustType) : Bool :=
  T.type_id == a.type_id

/-- Embedding of AnyRef unerase for a candidate type T: on a tag match,
return the stored address reinterpreted as a reference of type T. -/
def AnyRef.unerase (a : AnyRef) (T : RustType) : Option Nat :=
  if a.contains T then some a.ptr else none

/-- Embedding of AnyRef unerase_into for a candidate type T: same
computation as unerase; the handle is consumed and the result keeps the
original borrow lifetime, which has no runtime content. -/
def AnyRef.unerase_into (a : AnyRef) (T : RustType) : Option Nat :=
  if a.contains T then some a.ptr else none

/-- Embedding of the AnyMut struct from any_mut.rs: a raw address plus the
TypeId of the erased referent type. -/
structure AnyMut where
  ptr : Nat
  type_id : TypeId
deriving DecidableEq

/-- Embedding of AnyMut from_raw_parts. -/
def AnyMut.from_raw_parts (ptr : Nat) (type_id : TypeId) : AnyMut :=
  ⟨ptr, type_id⟩

/-- Embedding of AnyMut erase for a mutable reference of static type T. -/
def AnyMut.erase (T : RustType) (reference : Nat) : AnyMut :=
  AnyMut.from_raw_parts reference T.type_id

/-- Embedding of AnyMut contains for a candidate type T. -/
def AnyMut.contains (a : AnyMut) (T : RustType) : Bool :=
  T.type_id == a.type_id

/-- Embedding of AnyMut unerase: restore to an immutable reference. -/
def AnyMut.unerase (a : AnyMut) (T : RustType) : Option Nat :=
  if a.contains T then some a.ptr else none

/-- Embedding of AnyMut unerase_mut: restore to a mutable reference. -/
def AnyMut.unerase_mut (a : AnyMut) (T : RustType) : Option Nat :=
  if a.contains T then some a.ptr else none

/-- Embedding of AnyMut unerase_into: restore to a mutable reference,
consuming the handle. -/
def AnyMut.unerase_into (a : AnyMut) (T : RustType) : Option Nat :=
  if a.contains T then some a.ptr else none

/-- Embedding of AnyMut borrow: downgrade to an AnyRef with the same
address and TypeId. -/
def AnyMut.borrow (a : AnyMut) : AnyRef :=
  AnyRef.from_raw_parts a.ptr a.type_id

/-- Embedding of the AnySliceRef struct from any_slice_ref.rs: base
address of the first element, element count, per-element byte stride, and
the TypeId of the erased element type. -/
structure AnySliceRef where
  ptr : Nat
  len : Nat
  stride : Nat
  type_id : TypeId
deriving DecidableEq

/-- Embedding of AnySliceRef from_raw_parts. -/
def AnySliceRef.from_raw_parts (ptr len stride : Nat) (type_id : TypeId) :
    AnySliceRef :=
  ⟨ptr, len, stride, type_id⟩

/-- Embedding of AnySliceRef erase for a slice of static element type T:
capture the slice base address, its element count, size_of T as the
stride, and the TypeId of T. -/
def AnySliceRef.erase (T : RustType) (slice : RustSlice) : AnySliceRef :=
  AnySliceRef.from_raw_parts slice.addr slice.len T.size T.type_id

/-- Embedding of AnySliceRef contains for a candidate element type T. -/
def AnySliceRef.contains (s : AnySliceRef) (T : RustType) : Bool :=
  T.type_id == s.type_id

/-- Embedding of AnySliceRef unerase for a candidate element type T: on a
tag match, rebuild the typed slice from the stored address and length. -/
def AnySliceRef.unerase (s : AnySliceRef) (T : RustType) : Option RustSlice :=
  if s.contains T then some ⟨s.ptr, s.len⟩ else none

/-- Embedding of AnySliceRef unerase_into: same computation as unerase,
consuming the handle. -/
def AnySliceRef.unerase_into (s : AnySliceRef) (T : RustType) :
    Option RustSlice :=
  if s.contains T then some ⟨s.ptr, s.len⟩ else none

/-- Embedding of AnySliceRef get: bounds-checked single-element access.
The element address is ptr wrapping_add (index * stride), a usize
computation taken modulo USIZE. -/
def AnySliceRef.get (s : AnySliceRef) (index : Nat) : Option AnyRef :=
  if index < s.len then
    some (AnyRef.from_raw_parts ((s.ptr + index * s.stride % USIZE) % USIZE)
      s.type_id)
  else
    none

/-- Embedding of AnySliceRef subslice: constrain the range to the slice
length, then rebuild from the advanced base address (a wrapping usize
computation), the constrained range length, and the unchanged stride and
TypeId. -/
def AnySliceRef.subslice (s : AnySliceRef) (range : RangeExpr) : AnySliceRef :=
  let r := constrain_range s.len range
  AnySliceRef.from_raw_parts ((s.ptr + s.stride * r.start % USIZE) % USIZE)
    r.length s.stride s.type_id

/-- Embedding of AnySliceRef subslice_into: same computation as subslice,
consuming the handle. -/
def AnySliceRef.subslice_into (s : AnySliceRef) (range : RangeExpr) :
    AnySliceRef :=
  let r := constrain_range s.len range
  AnySliceRef.from_raw_parts ((s.ptr + s.stride * r.start % USIZE) % USIZE)
    r.length s.stride s.type_id

/-- Embedding of the AnySliceMut struct from any_slice_mut.rs: base
address, element count, per-element byte stride, and the TypeId of the
erased element type. -/
structure AnySliceMut where
  ptr : Nat
  len : Nat
  stride : Nat
  type_id : TypeId
deriving DecidableEq

/-- Embedding of AnySliceMut from_raw_parts. -/
def AnySliceMut.from_raw_parts (ptr len stride : Nat) (type_id : TypeId) :
    AnySliceMut :=
  ⟨ptr, len, stride, type_id⟩

/-- Embedding of AnySliceMut erase for a mutable slice of static element
type T. -/
def AnySliceMut.erase (T : RustType) (slice : RustSlice) : AnySliceMut :=
  AnySliceMut.from_raw_parts slice.addr slice.len T.size T.type_id

/-- Embedding of AnySliceMut contains for a candidate element type T. -/
def AnySliceMut.contains (s : AnySliceMut) (T : RustType) : Bool :=
  T.type_id == s.type_id

/-- Embedding of AnySliceMut unerase: restore to an immutable slice. -/
def AnySliceMut.unerase (s : AnySliceMut) (T : RustType) : Option RustSlice :=
  if s.contains T then some ⟨s.ptr, s.len⟩ else none

/-- Embedding of AnySliceMut unerase_mut: restore to a mutable slice. -/
def AnySliceMut.unerase_mut (s : AnySliceMut) (T : RustType) :
    Option RustSlice :=
  if s.contains T then some ⟨s.ptr, s.len⟩ else none

/-- Embedding of AnySliceMut unerase_into: restore to a mutable slice,
consuming the handle. -/
def AnySliceMut.unerase_into (s : AnySliceMut) (T : RustType) :
    Option RustSlice :=
  if s.contains T then some ⟨s.ptr, s.len⟩ else none

/-- Embedding of AnySliceMut borrow: downgrade to an AnySliceRef with the
same address, length, stride and TypeId. -/
def AnySliceMut.borrow (s : AnySliceMut) : AnySliceRef :=
  AnySliceRef.from_raw_parts s.ptr s.len s.stride s.type_id

/-- Embedding of AnySliceMut borrow_mut: reborrow with the same address,
length, stride and TypeId. -/
def AnySliceMut.borrow_mut (s : AnySliceMut) : AnySliceMut :=
  AnySliceMut.from_raw_parts s.ptr s.len s.stride s.type_id

/-- Embedding of AnySliceMut get: bounds-checked immutable single-element
access at address ptr wrapping_add (index * stride). -/
def AnySliceMut.get (s : AnySliceMut) (index : Nat) : Option AnyRef :=
  if index < s.len then
    some (AnyRef.from_raw_parts ((s.ptr + index * s.stride % USIZE) % USIZE)
      s.type_id)
  else
    none

/-- Embedding of AnySliceMut get_mut: bounds-checked mutable
single-element access at address ptr wrapping_add (index * stride). -/
def AnySliceMut.get_mut (s : AnySliceMut) (index : Nat) : Option AnyMut :=
  if index < s.len then
    some (AnyMut.from_raw_parts ((s.ptr + index * s.stride % USIZE) % USIZE)
      s.type_id)
  else
    none

/-- Embedding of AnySliceMut subslice: constrain the range to the slice
length, then rebuild an immutable AnySliceRef from the advanced base
address, the constrained range length, and the unchanged stride and
TypeId. -/
def AnySliceMut.subslice (s : AnySliceMut) (range : RangeExpr) : AnySliceRef :=
  let r := constrain_range s.len range
  AnySliceRef.from_raw_parts ((s.ptr + s.stride * r.start % USIZE) % USIZE)
    r.length s.stride s.type_id

/-- Embedding of AnySliceMut subslice_mut: constrain the range to the
slice length, then rebuild a mutable AnySliceMut from the advanced base
address, the constrained range length, and the unchanged stride and
TypeId. -/
def AnySliceMut.subslice_mut (s : AnySliceMut) (range : RangeExpr) :
    AnySliceMut :=
  let r := constrain_range s.len range
  AnySliceMut.from_raw_parts ((s.ptr + s.stride * r.start % USIZE) % USIZE)
    r.length s.stride s.type_id

/-- Embedding of AnySliceMut subslice_into: same computation as
subslice_mut, consuming the handle. -/
def AnySliceMut.subslice_into (s : AnySliceMut) (range : RangeExpr) :
    AnySliceMut :=
  let r := constrain_range s.len range
  AnySliceMut.from_raw_parts ((s.ptr + s.stride * r.start % USIZE) % USIZE)
    r.length s.stride s.type_id

/-! Helper lemmas shared by the claim theorems. -/

/-- The constrained range is the pair of resolved endpoints, each clamped
to the container length. -/
theorem constrain_range_eq (len : Nat) (r : RangeExpr) :
    constrain_range len r =
      ⟨(r.resolved_start).min len, (r.resolved_stop len).min len⟩ := by
  cases r with
  | mk sb eb => cases sb <;> cases eb <;> rfl

/-- Both endpoints of a constrained range are at most the container
length. -/
theorem constrain_range_le (len : Nat) (r : RangeExpr) :
    (constrain_range len r).start ≤ len ∧
      (constrain_range len r).stop ≤ len := by
  rw [constrain_range_eq]
  exact ⟨Nat.min_le_right _ _, Nat.min_le_right _ _⟩

/-- The Range length is truncated subtraction of the endpoints. -/
theorem URange.length_eq (r : URange) : r.length = r.stop - r.start := by
  unfold URange.length
  split
  · rfl
  · omega

/-- Wrapping base-address arithmetic for a subslice step. -/
theorem subslice_ptr_eq (p st a n : Nat) :
    (p + st * a % n) % n = (p + a * st) % n := by
  rw [Nat.add_mod_mod, Nat.mul_comm]

/-- Two wrapping address advances compose into one. -/
theorem wrap_add_assoc (p a b n : Nat) :
    ((p + a % n) % n + b % n) % n = (p + (a + b) % n) % n := by
  rw [Nat.add_mod_mod ((p + a % n) % n) b n, Nat.add_mod_mod p a n,
    Nat.mod_add_mod, Nat.add_mod_mod p (a + b) n, Nat.add_assoc]

/-! Claim theorems. -/

/-- C1: for every value v of static type T (a referent v read at address
p through a memory mem for type T), erasing a shared reference to v with
AnyRef erase and unerasing at T returns some reference whose referent
equals v, and unerasing the same handle at any type U whose TypeId
differs from the TypeId of T returns none. -/
theorem c1_anyRef_roundtrip (V : Type) (mem : Nat → V) (T U : RustType)
    (p : Nat) (v : V) (hv : mem p = v) (hU : U.type_id ≠ T.type_id) :
    (∃ r, (AnyRef.erase T p).unerase T = some r ∧ mem r = v) ∧
      (AnyRef.erase T p).unerase U = none := by
  refine ⟨⟨p, ?_, hv⟩, ?_⟩
  · simp [AnyRef.erase, AnyRef.unerase, AnyRef.contains, AnyRef.from_raw_parts]
  · simp [AnyRef.erase, AnyRef.unerase, AnyRef.contains, AnyRef.from_raw_parts,
      hU]

/-- Witness for C1 at a concrete memory, address and pair of types. -/
theorem c1_anyRef_roundtrip_witness :
    (fun _ : Nat => (7 : Nat)) 100 = 7 ∧
    (⟨1⟩ : TypeId) ≠ (⟨0⟩ : TypeId) ∧
    ((∃ r, (AnyRef.erase ⟨⟨0⟩, 4⟩ 100).unerase ⟨⟨0⟩, 4⟩ = some r ∧
        (fun _ : Nat => (7 : Nat)) r = 7) ∧
      (AnyRef.erase ⟨⟨0⟩, 4⟩ 100).unerase ⟨⟨1⟩, 4⟩ = none) :=
  ⟨rfl, by decide,
    c1_anyRef_roundtrip Nat (fun _ => 7) ⟨⟨0⟩, 4⟩ ⟨⟨1⟩, 4⟩ 100 7 rfl
      (by decide)⟩

/-- C2: for every erased handle (AnyRef, AnyMut, AnySliceRef,
AnySliceMut) and candidate type T, every restoration operation returns
some exactly when the stored TypeId equals the TypeId of T, and returns
none exactly on any other T; the functions are total, so the absent
result is the only way a mismatch is signalled. -/
theorem c2_restore_some_iff_tag_match :
    (∀ (a : AnyRef) (T : RustType),
      ((a.unerase T).isSome = true ↔ T.type_id = a.type_id) ∧
      (a.unerase T = none ↔ T.type_id ≠ a.type_id) ∧
      ((a.unerase_into T).isSome = true ↔ T.type_id = a.type_id) ∧
      (a.unerase_into T = none ↔ T.type_id ≠ a.type_id)) ∧
    (∀ (a : AnyMut) (T : RustType),
      ((a.unerase T).isSome = true ↔ T.type_id = a.type_id) ∧
      (a.unerase T = none ↔ T.type_id ≠ a.type_id) ∧
      ((a.unerase_mut T).isSome = true ↔ T.type_id = a.type_id) ∧
      (a.unerase_mut T = none ↔ T.type_id ≠ a.type_id) ∧
      ((a.unerase_into T).isSome = true ↔ T.type_id = a.type_id) ∧
      (a.unerase_into T = none ↔ T.type_id ≠ a.type_id)) ∧
    (∀ (s : AnySliceRef) (T : RustType),
      ((s.unerase T).isSome = true ↔ T.type_id = s.type_id) ∧
      (s.unerase T = none ↔ T.type_id ≠ s.type_id) ∧
      ((s.unerase_into T).isSome = true ↔ T.type_id = s.type_id) ∧
      (s.unerase_into T = none ↔ T.type_id ≠ s.type_id)) ∧
    (∀ (s : AnySliceMut) (T : RustType),
      ((s.unerase T).isSome = true ↔ T.type_id = s.type_id) ∧
      (s.unerase T = none ↔ T.type_id ≠ s.type_id) ∧
      ((s.unerase_mut T).isSome = true ↔ T.type_id = s.type_id) ∧
      (s.unerase_mut T = none ↔ T.type_id ≠ s.type_id) ∧
      ((s.unerase_into T).isSome = true ↔ T.type_id = s.type_id) ∧
      (s.unerase_into T = none ↔ T.type_id ≠ s.type_id)) := by
  refine ⟨fun a T => ?_, fun a T => ?_, fun s T => ?_, fun s T => ?_⟩
  · by_cases h : T.type_id = a.type_id <;>
      simp [AnyRef.unerase, AnyRef.unerase_into, AnyRef.contains, h]
  · by_cases h : T.type_id = a.type_id <;>
      simp [AnyMut.unerase, AnyMut.unerase_mut, AnyMut.unerase_into,
        AnyMut.contains, h]
  · by_cases h : T.type_id = s.type_id <;>
      simp [AnySliceRef.unerase, AnySliceRef.unerase_into,
        AnySliceRef.contains, h]
  · by_cases h : T.type_id = s.type_id <;>
      simp [AnySliceMut.unerase, AnySliceMut.unerase_mut,
        AnySliceMut.unerase_into, AnySliceMut.contains, h]

/-- C10: for every erased handle and candidate type T, the borrowing and
consuming restoration forms agree: unerase_into equals unerase (and
unerase_mut where it exists) as a function of the handle and T, so they
succeed on exactly the same T and on success return the same address (and
for slices the same length); the forms differ only in lifetime, which has
no runtime content. -/
theorem c10_restore_forms_agree :
    (∀ (a : AnyRef) (T : RustType), a.unerase_into T = a.unerase T) ∧
    (∀ (a : AnyMut) (T : RustType),
      a.unerase_mut T = a.unerase T ∧ a.unerase_into T = a.unerase T) ∧
    (∀ (s : AnySliceRef) (T : RustType), s.unerase_into T = s.unerase T) ∧
    (∀ (s : AnySliceMut) (T : RustType),
      s.unerase_mut T = s.unerase T ∧ s.unerase_into T = s.unerase T) :=
  ⟨fun _ _ => rfl, fun _ _ => ⟨rfl, rfl⟩, fun _ _ => rfl,
    fun _ _ => ⟨rfl, rfl⟩⟩

/-- C8: downgrading an exclusive handle with borrow yields a shared
handle with the same address and TypeId (and for slices the same length
and stride), and the shared handle restores to exactly what the exclusive
handle restores to; borrow is a pure function of the handle, so any two
downgrades of the same handle yield the same shared handle and hence the
same read-only content. -/
theorem c8_borrow_preserves_view :
    (∀ (a : AnyMut) (T : RustType),
      a.borrow.ptr = a.ptr ∧
      a.borrow.type_id = a.type_id ∧
      a.borrow.unerase T = a.unerase T ∧
      a.borrow = a.borrow) ∧
    (∀ (s : AnySliceMut) (T : RustType),
      s.borrow.ptr = s.ptr ∧
      s.borrow.len = s.len ∧
      s.borrow.stride = s.stride ∧
      s.borrow.type_id = s.type_id ∧
      s.borrow.unerase T = s.unerase T ∧
      s.borrow = s.borrow) :=
  ⟨fun _ _ => ⟨rfl, rfl, rfl, rfl⟩, fun _ _ => ⟨rfl, rfl, rfl, rfl, rfl, rfl⟩⟩

/-- C3 counterexample: the reversed range 4..2 against a container of
length 5 is constrained to the pair with start 4 and stop 2, so the
produced endpoints do not satisfy start ≤ stop. -/
theorem c3_counterexample_reversed_range :
    ¬ ((constrain_range 5 ⟨Bound.included 4, Bound.excluded 2⟩).start ≤
        (constrain_range 5 ⟨Bound.included 4, Bound.excluded 2⟩).stop) := by
  decide

/-- C3 amended: for every container length and range expression, both
produced endpoints are clamped to the container length, and start ≤ stop
holds whenever the resolved start endpoint does not exceed the resolved
end endpoint (in particular for every non-reversed range); a reversed
range keeps its reversed endpoints, which downstream consumers read as an
empty range. -/
theorem c3_constrain_range_clamps (len : Nat) (r : RangeExpr) :
    (constrain_range len r).start ≤ len ∧
    (constrain_range len r).stop ≤ len ∧
    (r.resolved_start ≤ r.resolved_stop len →
      (constrain_range len r).start ≤ (constrain_range len r).stop) := by
  rw [constrain_range_eq]
  refine ⟨Nat.min_le_right _ _, Nat.min_le_right _ _, fun h => ?_⟩
  exact min_le_min h le_rfl

/-- Witness for C3 amended at a concrete length and forward range. -/
theorem c3_constrain_range_clamps_witness :
    ((⟨Bound.included 1, Bound.excluded 3⟩ : RangeExpr).resolved_start ≤
      (⟨Bound.included 1, Bound.excluded 3⟩ : RangeExpr).resolved_stop 5) ∧
    ((constrain_range 5 ⟨Bound.included 1, Bound.excluded 3⟩).start ≤ 5 ∧
      (constrain_range 5 ⟨Bound.included 1, Bound.excluded 3⟩).stop ≤ 5 ∧
      (constrain_range 5 ⟨Bound.included 1, Bound.excluded 3⟩).start ≤
        (constrain_range 5 ⟨Bound.included 1, Bound.excluded 3⟩).stop) := by
  have h := c3_constrain_range_clamps 5 ⟨Bound.included 1, Bound.excluded 3⟩
  exact ⟨by decide, h.1, h.2.1, h.2.2 (by decide)⟩

/-- C4 counterexample: under the overflow-checked (debug build) semantics
of the usize additions inside bound resolution, the range with an
inclusive end bound at the largest usize value makes constrain_range
overflow, modelled as none: the function does fault on an input at the
extreme of usize. -/
theorem c4_counterexample_usize_extreme :
    constrain_range_checked 5
      ⟨Bound.unbounded, Bound.included (USIZE - 1)⟩ = none := by
  decide

/-- C4 amended: for every container length L and every range expression
whose bound resolution does not overflow usize (every range except one
with an inclusive end bound or an exclusive start bound at the largest
usize value), constrain_range returns a result without fault, identical
under checked and wrapping arithmetic, and with both endpoints clamped to
L, so bounds at or past L degrade to an empty or truncated range; on the
excluded overflowing inputs, a debug build panics while a release build
wraps the resolved endpoint modulo 2 to the 64. -/
theorem c4_constrain_range_total_without_overflow (len : Nat)
    (r : RangeExpr) (h : r.no_overflow = true) :
    constrain_range_checked len r = some (constrain_range len r) ∧
    (constrain_range len r).start ≤ len ∧
    (constrain_range len r).stop ≤ len := by
  refine ⟨?_, (constrain_range_le len r).1, (constrain_range_le len r).2⟩
  cases r with
  | mk sb eb =>
    simp only [RangeExpr.no_overflow, Bool.and_eq_true] at h
    cases sb <;> cases eb <;>
      simp_all [constrain_range_checked, constrain_range,
        Nat.mod_eq_of_lt]

/-- Witness for C4 amended at a concrete length and range. -/
theorem c4_constrain_range_total_without_overflow_witness :
    (⟨Bound.excluded 0, Bound.included 3⟩ : RangeExpr).no_overflow = true ∧
    (constrain_range_checked 5 ⟨Bound.excluded 0, Bound.included 3⟩ =
        some (constrain_range 5 ⟨Bound.excluded 0, Bound.included 3⟩) ∧
      (constrain_range 5 ⟨Bound.excluded 0, Bound.included 3⟩).start ≤ 5 ∧
      (constrain_range 5 ⟨Bound.excluded 0, Bound.included 3⟩).stop ≤ 5) :=
  ⟨by decide,
    c4_constrain_range_total_without_overflow 5
      ⟨Bound.excluded 0, Bound.included 3⟩ (by decide)⟩

/-- C5: every subslice operation first constrains the range against the
view length and then returns a view whose base address is the old base
advanced by start elements (wrapping usize arithmetic), whose length is
stop - start of the constrained range (truncated subtraction, so an empty
or fully out-of-range request yields length 0), and whose stride and
TypeId are unchanged; the operations are total, so they always succeed
and never fault. -/
theorem c5_subslice_view_arithmetic :
    (∀ (s : AnySliceRef) (r : RangeExpr),
      (s.subslice r).ptr =
        (s.ptr + (constrain_range s.len r).start * s.stride) % USIZE ∧
      (s.subslice r).len =
        (constrain_range s.len r).stop - (constrain_range s.len r).start ∧
      (s.subslice r).stride = s.stride ∧
      (s.subslice r).type_id = s.type_id) ∧
    (∀ (s : AnySliceRef) (r : RangeExpr),
      (s.subslice_into r).ptr =
        (s.ptr + (constrain_range s.len r).start * s.stride) % USIZE ∧
      (s.subslice_into r).len =
        (constrain_range s.len r).stop - (constrain_range s.len r).start ∧
      (s.subslice_into r).stride = s.stride ∧
      (s.subslice_into r).type_id = s.type_id) ∧
    (∀ (s : AnySliceMut) (r : RangeExpr),
      (s.subslice r).ptr =
        (s.ptr + (constrain_range s.len r).start * s.stride) % USIZE ∧
      (s.subslice r).len =
        (constrain_range s.len r).stop - (constrain_range s.len r).start ∧
      (s.subslice r).stride = s.stride ∧
      (s.subslice r).type_id = s.type_id) ∧
    (∀ (s : AnySliceMut) (r : RangeExpr),
      (s.subslice_mut r).ptr =
        (s.ptr + (constrain_range s.len r).start * s.stride) % USIZE ∧
      (s.subslice_mut r).len =
        (constrain_range s.len r).stop - (constrain_range s.len r).start ∧
      (s.subslice_mut r).stride = s.stride ∧
      (s.subslice_mut r).type_id = s.type_id) ∧
    (∀ (s : AnySliceMut) (r : RangeExpr),
      (s.subslice_into r).ptr =
        (s.ptr + (constrain_range s.len r).start * s.stride) % USIZE ∧
      (s.subslice_into r).len =
        (constrain_range s.len r).stop - (constrain_range s.len r).start ∧
      (s.subslice_into r).stride = s.stride ∧
      (s.subslice_into r).type_id = s.type_id) :=
  ⟨fun s _ => ⟨subslice_ptr_eq s.ptr s.stride _ USIZE,
      URange.length_eq _, rfl, rfl⟩,
    fun s _ => ⟨subslice_ptr_eq s.ptr s.stride _ USIZE,
      URange.length_eq _, rfl, rfl⟩,
    fun s _ => ⟨subslice_ptr_eq s.ptr s.stride _ USIZE,
      URange.length_eq _, rfl, rfl⟩,
    fun s _ => ⟨subslice_ptr_eq s.ptr s.stride _ USIZE,
      URange.length_eq _, rfl, rfl⟩,
    fun s _ => ⟨subslice_ptr_eq s.ptr s.stride _ USIZE,
      URange.length_eq _, rfl, rfl⟩⟩

/-- C6: for every erased slice view, single-element access with get (and
get_mut) returns some exactly for an index below the view length, the
returned scalar handle sits at the base address advanced by index times
stride (wrapping usize arithmetic) and carries the TypeId of the view,
and every index at or past the length returns none. -/
theorem c6_get_bounds_and_address :
    (∀ (s : AnySliceRef) (i : Nat),
      (i < s.len →
        s.get i = some (AnyRef.from_raw_parts
          ((s.ptr + i * s.stride) % USIZE) s.type_id)) ∧
      (s.len ≤ i → s.get i = none)) ∧
    (∀ (s : AnySliceMut) (i : Nat),
      (i < s.len →
        s.get i = some (AnyRef.from_raw_parts
          ((s.ptr + i * s.stride) % USIZE) s.type_id)) ∧
      (s.len ≤ i → s.get i = none) ∧
      (i < s.len →
        s.get_mut i = some (AnyMut.from_raw_parts
          ((s.ptr + i * s.stride) % USIZE) s.type_id)) ∧
      (s.len ≤ i → s.get_mut i = none)) := by
  constructor
  · intro s i
    constructor
    · intro h
      simp [AnySliceRef.get, h, Nat.add_mod_mod]
    · intro h
      simp [AnySliceRef.get, Nat.not_lt.mpr h]
  · intro s i
    refine ⟨fun h => ?_, fun h => ?_, fun h => ?_, fun h => ?_⟩
    · simp [AnySliceMut.get, h, Nat.add_mod_mod]
    · simp [AnySliceMut.get, Nat.not_lt.mpr h]
    · simp [AnySliceMut.get_mut, h, Nat.add_mod_mod]
    · simp [AnySliceMut.get_mut, Nat.not_lt.mpr h]

/-- Witness for C6 at a concrete shared view and a concrete mutable view,
covering an in-bounds and an out-of-bounds index for each accessor. -/
theorem c6_get_bounds_and_address_witness :
    ((1 : Nat) < 2 ∧
      (⟨100, 2, 4, ⟨0⟩⟩ : AnySliceRef).get 1 =
        some (AnyRef.from_raw_parts ((100 + 1 * 4) % USIZE) ⟨0⟩)) ∧
    ((2 : Nat) ≤ 5 ∧ (⟨100, 2, 4, ⟨0⟩⟩ : AnySliceRef).get 5 = none) ∧
    ((0 : Nat) < 1 ∧
      (⟨64, 1, 8, ⟨3⟩⟩ : AnySliceMut).get_mut 0 =
        some (AnyMut.from_raw_parts ((64 + 0 * 8) % USIZE) ⟨3⟩)) ∧
    ((1 : Nat) ≤ 1 ∧ (⟨64, 1, 8, ⟨3⟩⟩ : AnySliceMut).get_mut 1 = none) := by
  have h1 := c6_get_bounds_and_address.1 ⟨100, 2, 4, ⟨0⟩⟩ 1
  have h2 := c6_get_bounds_and_address.1 ⟨100, 2, 4, ⟨0⟩⟩ 5
  have h3 := c6_get_bounds_and_address.2 ⟨64, 1, 8, ⟨3⟩⟩ 0
  have h4 := c6_get_bounds_and_address.2 ⟨64, 1, 8, ⟨3⟩⟩ 1
  exact ⟨⟨by decide, h1.1 (by decide)⟩, ⟨by decide, h2.2 (by decide)⟩,
    ⟨by decide, h3.2.2.1 (by decide)⟩, ⟨by decide, h4.2.2.2 (by decide)⟩⟩

/-- C7: erasing a slice of N elements of static type T (a valid Rust
slice, so its one-past-the-end address fits in the address space) yields
a view with length N, stride size_of T and the TypeId of T, and for every
index i below N, get resolves to exactly the address of element i of the
original slice, namely the slice base address plus i times size_of T. -/
theorem c7_erase_slice_stride_fidelity (T : RustType) (s : RustSlice)
    (h : s.addr + s.len * T.size < USIZE) :
    (AnySliceRef.erase T s).len = s.len ∧
    (AnySliceRef.erase T s).stride = T.size ∧
    (AnySliceRef.erase T s).type_id = T.type_id ∧
    (∀ i, i < s.len →
      (AnySliceRef.erase T s).get i =
        some (AnyRef.from_raw_parts (s.addr + i * T.size) T.type_id)) := by
  refine ⟨rfl, rfl, rfl, fun i hi => ?_⟩
  have hx : i * T.size ≤ s.len * T.size :=
    Nat.mul_le_mul_right _ (Nat.le_of_lt hi)
  have hlt : s.addr + i * T.size < USIZE :=
    Nat.lt_of_le_of_lt (Nat.add_le_add_left hx _) h
  simp [AnySliceRef.erase, AnySliceRef.from_raw_parts, AnySliceRef.get, hi,
    Nat.add_mod_mod, Nat.mod_eq_of_lt hlt]

/-- Witness for C7 at a concrete slice of three 4-byte elements. -/
theorem c7_erase_slice_stride_fidelity_witness :
    ((100 : Nat) + 3 * 4 < USIZE) ∧
    ((AnySliceRef.erase ⟨⟨2⟩, 4⟩ ⟨100, 3⟩).len = (⟨100, 3⟩ : RustSlice).len ∧
      (AnySliceRef.erase ⟨⟨2⟩, 4⟩ ⟨100, 3⟩).stride =
        (⟨⟨2⟩, 4⟩ : RustType).size ∧
      (AnySliceRef.erase ⟨⟨2⟩, 4⟩ ⟨100, 3⟩).type_id =
        (⟨⟨2⟩, 4⟩ : RustType).type_id ∧
      (∀ i, i < (⟨100, 3⟩ : RustSlice).len →
        (AnySliceRef.erase ⟨⟨2⟩, 4⟩ ⟨100, 3⟩).get i =
          some (AnyRef.from_raw_parts
            ((⟨100, 3⟩ : RustSlice).addr + i * (⟨⟨2⟩, 4⟩ : RustType).size)
            (⟨⟨2⟩, 4⟩ : RustType).type_id))) :=
  ⟨by decide, c7_erase_slice_stride_fidelity ⟨⟨2⟩, 4⟩ ⟨100, 3⟩ (by decide)⟩

/-- Two wrapping stride advances compose into a single advance by the sum
of the element offsets. -/
theorem wrap_two_steps (p st a b n : Nat) :
    ((p + st * a % n) % n + st * b % n) % n = (p + st * (a + b) % n) % n := by
  rw [Nat.mul_add]
  exact wrap_add_assoc p (st * a) (st * b) n

/-- Constraining a range whose endpoints already lie within the container
length leaves the endpoints unchanged. -/
theorem constrain_range_within (len a b : Nat) (h1 : a ≤ len)
    (h2 : b ≤ len) :
    constrain_range len ⟨Bound.included a, Bound.excluded b⟩ = ⟨a, b⟩ := by
  have hred : constrain_range len ⟨Bound.included a, Bound.excluded b⟩ =
      ⟨a.min len, b.min len⟩ := rfl
  rw [hred]
  congr 1
  · exact Nat.min_eq_left h1
  · exact Nat.min_eq_left h2

/-- C9: for every erased slice view and pair of ranges, taking a subslice
and then a subslice of the result yields exactly the same view (base
address, length, stride and TypeId) as one subslice of the original view
with the equivalent absolute range, whose endpoints are the first
constrained start plus the second constrained endpoints. -/
theorem c9_subslice_composes (v : AnySliceRef) (r1 r2 : RangeExpr) :
    (v.subslice r1).subslice r2 =
      v.subslice
        ⟨Bound.included ((constrain_range v.len r1).start +
            (constrain_range (v.subslice r1).len r2).start),
          Bound.excluded ((constrain_range v.len r1).start +
            (constrain_range (v.subslice r1).len r2).stop)⟩ := by
  show (v.subslice r1).subslice r2 =
    v.subslice
      ⟨Bound.included ((constrain_range v.len r1).start +
          (constrain_range (URange.length (constrain_range v.len r1))
            r2).start),
        Bound.excluded ((constrain_range v.len r1).start +
          (constrain_range (URange.length (constrain_range v.len r1))
            r2).stop)⟩
  rcases constrain_range_le v.len r1 with ⟨h1s, h1e⟩
  rcases constrain_range_le (URange.length (constrain_range v.len r1)) r2
    with ⟨h2s, h2e⟩
  have hlen : URange.length (constrain_range v.len r1) =
      (constrain_range v.len r1).stop - (constrain_range v.len r1).start :=
    URange.length_eq _
  have hA : (constrain_range v.len r1).start +
      (constrain_range (URange.length (constrain_range v.len r1))
        r2).start ≤ v.len := by omega
  have hB : (constrain_range v.len r1).start +
      (constrain_range (URange.length (constrain_range v.len r1))
        r2).stop ≤ v.len := by omega
  have hmk : ∀ (a b : AnySliceRef), a.ptr = b.ptr → a.len = b.len →
      a.stride = b.stride → a.type_id = b.type_id → a = b := by
    intro a b ha hb hc hd
    cases a
    cases b
    simp_all
  refine hmk _ _ ?_ ?_ rfl rfl
  · show ((v.ptr + v.stride *
        (constrain_range v.len r1).start % USIZE) % USIZE +
          v.stride * (constrain_range
            (URange.length (constrain_range v.len r1))
              r2).start % USIZE) % USIZE =
      (v.ptr + v.stride * (constrain_range v.len
        ⟨Bound.included ((constrain_range v.len r1).start +
            (constrain_range (URange.length (constrain_range v.len r1))
              r2).start),
          Bound.excluded ((constrain_range v.len r1).start +
            (constrain_range (URange.length (constrain_range v.len r1))
              r2).stop)⟩).start % USIZE) % USIZE
    rw [constrain_range_within v.len _ _ hA hB]
    exact wrap_two_steps v.ptr v.stride _ _ USIZE
  · show URange.length (constrain_range
        (URange.length (constrain_range v.len r1)) r2) =
      URange.length (constrain_range v.len
        ⟨Bound.included ((constrain_range v.len r1).start +
            (constrain_range (URange.length (constrain_range v.len r1))
              r2).start),
          Bound.excluded ((constrain_range v.len r1).start +
            (constrain_range (URange.length (constrain_range v.len r1))
              r2).stop)⟩)
    rw [constrain_range_within v.len _ _ hA hB]
    have e1 := URange.length_eq
      (constrain_range (URange.length (constrain_range v.len r1)) r2)
    have e2 : URange.length
        (⟨(constrain_range v.len r1).start +
            (constrain_range (URange.length (constrain_range v.len r1))
              r2).start,
          (constrain_range v.len r1).start +
            (constrain_range (URange.length (constrain_range v.len r1))
              r2).stop⟩ : URange) =
        ((constrain_range v.len r1).start +
            (constrain_range (URange.length (constrain_range v.len r1))
              r2).stop) -
          ((constrain_range v.len r1).start +
            (constrain_range (URange.length (constrain_range v.len r1))
              r2).start) := URange.length_eq _
    omega
